import Mathlib

/- Verification development for the pdf-converter-archiver repository.
   The definitions below are a shallow embedding of src/model.py and of the
   export orchestration in src/controller.py: Python dicts become
   insertion-ordered association lists, Python sets become Finset String,
   integer ids become Nat, raised exceptions become an Except error value,
   and the filesystem state touched by the export pipeline becomes an
   explicit set of file names. -/

namespace PdfArchiver

/-- Association-list model of a CPython dict keyed by int: key-value pairs
in insertion order (CPython 3.7+ dicts iterate in insertion order). -/
abbrev PyDict (α : Type) := List (Nat × α)

/-- Keys of a dict, in insertion order. -/
def dictKeys {α : Type} (d : PyDict α) : List Nat := d.map Prod.fst

/-- Values of a dict, as iterated by dict.values(). -/
def dictValues {α : Type} (d : PyDict α) : List α := d.map Prod.snd

/-- Lookup d[k]: the value of the (unique) pair with matching key. -/
def dictLookup {α : Type} (d : PyDict α) (k : Nat) : Option α :=
  match d with
  | [] => none
  | p :: rest => if p.1 = k then some p.2 else dictLookup rest k

/-- Assignment d[k] = v: overwrites in place when k is already a key
(keeping the original insertion position), appends otherwise, matching
CPython dict insertion-order semantics. -/
def dictInsert {α : Type} (d : PyDict α) (k : Nat) (v : α) : PyDict α :=
  if k ∈ dictKeys d then d.map (fun p => if p.1 = k then (k, v) else p)
  else d ++ [(k, v)]

/-- FileElement from src/model.py line 9: a tuple (ID, Nom_Modifiable,
Extension), that is (id, displayStem, extension). -/
abbrev FileElement := Nat × String × String

/-- Full display name of an element: displayStem ++ extension. -/
def fullName (e : FileElement) : String := e.2.1 ++ e.2.2

/-- Python exceptions that the embedded code can raise. -/
inductive PyError where
  | keyError
  | calledProcessError
deriving DecidableEq

/-- State of the Model class (src/model.py lines 17-30): the three central
data structures plus the id counter. -/
structure Model where
  file_path_dict : PyDict String
  file_element_dict : PyDict FileElement
  unique_file_names : Finset String
  counter : Nat
deriving DecidableEq

/-- Model.__init__ (src/model.py lines 17-30): all structures empty, the
counter starts at 1. -/
def Model.init : Model :=
  { file_path_dict := []
    file_element_dict := []
    unique_file_names := ∅
    counter := 1 }

/-- Model.add_file (src/model.py lines 32-67). Returns the pair
(returned value, state after the call); the Python method mutates self in
place and returns the new FileElement or None. -/
def Model.add_file (m : Model) (absolute_path file_stem file_suffix : String)
    (ask_confirm_func : String → Bool) : Option FileElement × Model :=
  if absolute_path ∈ dictValues m.file_path_dict then (none, m)
  else
    let file_full_name : String := file_stem ++ file_suffix
    if file_full_name ∈ m.unique_file_names ∧ ask_confirm_func file_full_name = false then
      (none, m)
    else
      let current_id : Nat := m.counter
      let file_element : FileElement := (current_id, file_stem, file_suffix)
      (some file_element,
        { file_path_dict := dictInsert m.file_path_dict current_id absolute_path
          file_element_dict := dictInsert m.file_element_dict current_id file_element
          unique_file_names := insert file_full_name m.unique_file_names
          counter := m.counter + 1 })

/-- Arguments with which Model.add_file invokes ask_confirm_func, read off
src/model.py lines 45-55: the callback is invoked exactly once, with the
full name, when the path is fresh and the full name is already present;
otherwise it is never invoked. -/
def Model.add_file_confirm_args (m : Model) (absolute_path file_stem file_suffix : String) :
    List String :=
  if absolute_path ∈ dictValues m.file_path_dict then []
  else if (file_stem ++ file_suffix) ∈ m.unique_file_names then [file_stem ++ file_suffix]
  else []

/-- Model.update_file_stem (src/model.py lines 69-98). The Python method
takes the id as a string and converts it with int(); we take the converted
Nat directly. The subscript self.file_element_dict[file_id_int] on line 79
raises KeyError for an unknown id, modelled by Except.error. -/
def Model.update_file_stem (m : Model) (file_id : Nat) (new_stem : String) :
    Except PyError (Option FileElement × Model) :=
  match dictLookup m.file_element_dict file_id with
  | none => .error .keyError
  | some current =>
    let old_stem : String := current.2.1
    let extension : String := current.2.2
    let old_full_name : String := old_stem ++ extension
    let new_full_name : String := new_stem ++ extension
    if new_full_name ≠ old_full_name ∧ new_full_name ∈ m.unique_file_names then
      .ok (none, m)
    else
      let names1 : Finset String :=
        if old_full_name ∈ m.unique_file_names then m.unique_file_names.erase old_full_name
        else m.unique_file_names
      let updated : FileElement := (current.1, new_stem, extension)
      .ok (some updated,
        { m with
            unique_file_names := insert new_full_name names1
            file_element_dict := dictInsert m.file_element_dict file_id updated })

/-- Model.get_file_count (src/model.py lines 100-102): len(file_path_dict). -/
def Model.get_file_count (m : Model) : Nat := m.file_path_dict.length

/-- Model.reset (src/model.py lines 104-109): clears the three structures
and puts the counter back to 1. -/
def Model.reset (_m : Model) : Model := Model.init

/- Decimal rendering of a Nat, embedding the decimal notation produced by
Python f-strings on an int. Implemented with structural recursion on a
fuel argument so that the kernel can evaluate it; fuel n always suffices
because n / 10 < n for n > 0. -/

/-- Character for one decimal digit. -/
def digitChar (d : Nat) : Char :=
  if d = 0 then '0' else if d = 1 then '1' else if d = 2 then '2'
  else if d = 3 then '3' else if d = 4 then '4' else if d = 5 then '5'
  else if d = 6 then '6' else if d = 7 then '7' else if d = 8 then '8' else '9'

/-- Little-endian base-10 digits of n, with fuel. -/
def digitsAux : Nat → Nat → List Nat
  | 0, _ => []
  | fuel + 1, n => if n = 0 then [] else n % 10 :: digitsAux fuel (n / 10)

/-- Little-endian base-10 digits of n (empty for 0). -/
def natDigits (n : Nat) : List Nat := digitsAux n n

/-- Decimal string of a Nat, as produced by str(int) in Python. -/
def natRepr (n : Nat) : String :=
  if n = 0 then ("0") else String.mk (((natDigits n).map digitChar).reverse)

/- Embedding of the pathlib.PurePath accessors used by the source:
name (the component after the last slash), stem and with_suffix (which
use the last dot of the name when it is neither the first nor the last
character, per CPython pathlib). -/

/-- Characters of the last path component (pathlib Path.name). -/
def pyNameList (cs : List Char) : List Char :=
  (cs.reverse.takeWhile (fun c => c ≠ '/')).reverse

/-- Last path component of a path string (pathlib Path.name). -/
def pyName (p : String) : String := String.mk (pyNameList p.toList)

/-- Characters of a file name without its suffix (pathlib Path.stem on a
name): drop from the last dot on, provided that dot is neither the first
nor the last character of the name. -/
def pyStemList (cs : List Char) : List Char :=
  let rev := cs.reverse
  match rev.findIdx? (fun c => c == '.') with
  | none => cs
  | some j => if 0 < j ∧ j + 1 < cs.length then (rev.drop (j + 1)).reverse else cs

/-- pathlib Path.stem applied to a file name. -/
def pyStem (name : String) : String := String.mk (pyStemList name.toList)

/-- pathlib Path.with_suffix applied to a file name: the stem (per the
Python suffix rule) followed by the new suffix. -/
def withSuffix (name sfx : String) : String := pyStem name ++ sfx

/- Export pipeline (src/model.py lines 113-179 and src/controller.py
lines 144-180). The temporary working directory is modelled as the
Finset of file names it contains; the external soffice converter is
modelled by a predicate giving, per entry id, whether its invocation
succeeds, in which case it writes the deterministic output name
(input stem plus .pdf). -/

/-- Candidate final names tried by the collision loop of src/model.py
lines 159-167: candidate 0 is displayStem.pdf and candidate k for k >= 1
is displayStem_k.pdf. -/
def candidate (base : String) : Nat → String
  | 0 => base ++ ".pdf"
  | k + 1 => base ++ "_" ++ natRepr (k + 1) ++ ".pdf"

/-- The while loop of src/model.py lines 165-167: starting at counter k,
return the first candidate name not present in the working directory.
The fuel argument only bounds the recursion for Lean; fuel wd.card + 1
provably always suffices (see resolveLoop_spec below), so the fuel-out
branch is never reached by resolveFinal. -/
def resolveLoop (wd : Finset String) (base : String) : Nat → Nat → String
  | k, 0 => candidate base k
  | k, fuel + 1 =>
    if candidate base k ∈ wd then resolveLoop wd base (k + 1) fuel else candidate base k

/-- Final-name resolution of src/model.py lines 158-167: displayStem.pdf
if free, otherwise the first free displayStem_k.pdf with k = 1, 2, ... -/
def resolveFinal (wd : Finset String) (base : String) : String :=
  if candidate base 0 ∈ wd then resolveLoop wd base 1 (wd.card + 1) else candidate base 0

/-- Body of the per-entry loop of Model.export (src/model.py lines
125-179) acting on the working-directory contents: copy the original
under the id-prefixed unique name, run the converter (writing
stem-of-input.pdf on success), resolve the final name, rename the
generated pdf, and always remove the staged copy. On converter failure
the finally block still removes the staged copy, and CalledProcessError
propagates (the caller then discards the whole directory). -/
def exportEntry (convertOk : Nat → Bool) (wd : Finset String) (file_id : Nat)
    (original_path new_pdf_name_stem : String) : Except PyError (Finset String) :=
  let temp_unique_original_name : String := natRepr file_id ++ "_" ++ pyName original_path
  let wd1 : Finset String := insert temp_unique_original_name wd
  let generated_pdf_name : String := pyStem temp_unique_original_name ++ ".pdf"
  if convertOk file_id then
    let wd2 : Finset String := insert generated_pdf_name wd1
    let pdf_new_name : String := resolveFinal wd2 new_pdf_name_stem
    let wd3 : Finset String :=
      if generated_pdf_name ∈ wd2 then insert pdf_new_name (wd2.erase generated_pdf_name)
      else wd2
    .ok (wd3.erase temp_unique_original_name)
  else
    .error .calledProcessError

/-- Iteration of Model.export over file_path_dict.items() in insertion
order; the per-entry element lookup (src/model.py line 128) raises
KeyError if the element dict lacks the id. -/
def exportFold (convertOk : Nat → Bool) (elems : PyDict FileElement) :
    List (Nat × String) → Finset String → Except PyError (Finset String)
  | [], wd => .ok wd
  | (file_id, original_path) :: rest, wd =>
    match dictLookup elems file_id with
    | none => .error .keyError
    | some el =>
      match exportEntry convertOk wd file_id original_path el.2.1 with
      | .ok wd2 => exportFold convertOk elems rest wd2
      | .error e => .error e

/-- Model.export (src/model.py lines 113-179): the freshly created
temporary directory starts empty (its uuid-based name is collision-free),
and on success the result is the set of files left in it. -/
def Model.export (m : Model) (convertOk : Nat → Bool) : Except PyError (Finset String) :=
  exportFold convertOk m.file_element_dict m.file_path_dict ∅

/-- Projection of an export result to the working-directory contents on
success. -/
def exportContents (m : Model) (convertOk : Nat → Bool) : Option (Finset String) :=
  match m.export convertOk with
  | .ok wd => some wd
  | .error _ => none

/-- Projection of an export result to the raised error, if any. -/
def exportError (m : Model) (convertOk : Nat → Bool) : Option PyError :=
  match m.export convertOk with
  | .ok _ => none
  | .error e => some e

/-- Result of Model.create_zip_archive: where shutil.make_archive writes
the archive, what the method returns, and which files the archive holds. -/
structure ZipResult where
  createdPath : String
  returnedPath : String
  entries : Finset String
deriving DecidableEq

/-- Model.create_zip_archive (src/model.py lines 181-193), with zip_name a
single path component (as the caller supplies). shutil.make_archive with
format zip writes base_name + ".zip"; the method returns
str(zip_path.with_suffix(".zip")), which replaces an existing dot-suffix
of zip_name instead of appending. The archive packs the contents of
source_dir at its root. -/
def create_zip_archive (source_contents : Finset String) (dest_dir zip_name : String) :
    ZipResult :=
  { createdPath := dest_dir ++ "/" ++ zip_name ++ ".zip"
    returnedPath := dest_dir ++ "/" ++ withSuffix zip_name (".zip")
    entries := source_contents }

/-- Controller.handle_reset (src/controller.py lines 113-118), restricted
to its effect on the Model (the view calls are presentation plumbing). -/
def Controller.handle_reset (m : Model) : Model := m.reset

/-- Observable outcome of Controller._run_export_in_thread: the Model
state afterwards, the archive if one was produced, and whether the
temporary working directory still exists when the thread finishes. -/
structure ExportOutcome where
  model : Model
  archive : Option ZipResult
  tempDirExists : Bool
deriving DecidableEq

/-- Controller._run_export_in_thread (src/controller.py lines 144-180).
zipOk models whether shutil.make_archive itself succeeds (its failure is
the generic except-Exception branch). On success the controller calls
handle_reset; on CalledProcessError (or any other exception) the model is
left untouched; the finally block always removes the temporary directory.
uuidHex4 stands for the 4 random hex characters in the archive base name. -/
def Controller.run_export_in_thread (m : Model) (convertOk : Nat → Bool) (zipOk : Bool)
    (directory uuidHex4 : String) : ExportOutcome :=
  match m.export convertOk with
  | .ok wd =>
    if zipOk then
      let zip_filename : String := "Export_PDFs_" ++ pyName directory ++ "_" ++ uuidHex4
      { model := Controller.handle_reset m
        archive := some (create_zip_archive wd directory zip_filename)
        tempDirExists := false }
    else
      { model := m, archive := none, tempDirExists := false }
  | .error _ =>
    { model := m, archive := none, tempDirExists := false }

/- Catalog operation traces, for invariant claims: the three operations
that can touch the Model state from the UI. An add carries the boolean
the conflict dialog would answer; a rename that raises KeyError leaves
the state unchanged (the exception fires before any mutation). -/

/-- One user-level catalog operation. -/
inductive Op where
  | addOp (path stem sfx : String) (confirm : Bool)
  | renameOp (id : Nat) (newStem : String)
  | resetOp
deriving DecidableEq

/-- State after one operation. -/
def applyOp (m : Model) : Op → Model
  | .addOp p s x c => (m.add_file p s x (fun _ => c)).2
  | .renameOp i s =>
    match m.update_file_stem i s with
    | .ok (_, m2) => m2
    | .error _ => m
  | .resetOp => m.reset

/-- State reached from a fresh Model by a list of operations. -/
def runOps (ops : List Op) : Model := ops.foldl applyOp Model.init

/-- Whether an operation, applied in state m, admits a file whose display
name collides with one already present (the ask-yes path of src/model.py
lines 52-55). -/
def opAdmitsDup (m : Model) : Op → Bool
  | .addOp p s x c =>
    (!(decide (p ∈ dictValues m.file_path_dict))) &&
      decide ((s ++ x) ∈ m.unique_file_names) && c
  | .renameOp _ _ => false
  | .resetOp => false

/-- Whether any operation of the trace admits a colliding display name. -/
def traceAdmitsDup : Model → List Op → Bool
  | _, [] => false
  | m, op :: rest => opAdmitsDup m op || traceAdmitsDup (applyOp m op) rest

/-- Value of a little-endian digit list (left inverse of natDigits). -/
def digitsVal : List Nat → Nat
  | [] => 0
  | d :: ds => d + 10 * digitsVal ds

/-- Full display names of the entries of an element dict, in insertion
order. -/
def dictNames (d : PyDict FileElement) : List String := d.map (fun p => fullName p.2)

/-- Catalog invariant tying the three structures together. It holds in
every state reachable without admitting a duplicate display name: the two
dicts share their (duplicate-free) key list, keys are below the counter,
the full display names of the entries are pairwise distinct, and the
unique-name set is exactly that list of names. -/
def Inv (m : Model) : Prop :=
  dictKeys m.file_path_dict = dictKeys m.file_element_dict ∧
  (dictKeys m.file_element_dict).Nodup ∧
  (∀ k ∈ dictKeys m.file_element_dict, k < m.counter) ∧
  (dictNames m.file_element_dict).Nodup ∧
  m.unique_file_names = (dictNames m.file_element_dict).toFinset

/-- Catalog holding the single file /a/report.docx. -/
def oneFileModel : Model :=
  (Model.init.add_file ("/a/report.docx") ("report") (".docx") (fun _ => false)).2

/-- Catalog of the admitted-duplicate scenario of spec section 8: two
source files both displayed as report.docx, the second admitted through
the conflict prompt. -/
def scenarioModel : Model :=
  (oneFileModel.add_file ("/b/report.docx") ("report") (".docx") (fun _ => true)).2

/-- scenarioModel after renaming entry 1 to X: entry 2 is still displayed
as report.docx, but the unique-name set no longer contains that name. -/
def dupRenamedModel : Model := applyOp scenarioModel (.renameOp 1 ("X"))

/-- Catalog with two distinctly named files, report.docx and other.docx. -/
def twoNamesModel : Model :=
  (oneFileModel.add_file ("/b/other.docx") ("other") (".docx") (fun _ => false)).2

/-- Whether update_file_stem returns None (the null outcome, as opposed to
an updated element or a raised exception). -/
def renameReturnsNull (m : Model) (id : Nat) (s : String) : Bool :=
  match m.update_file_stem id s with
  | .ok (none, _) => true
  | _ => false

/-- The FileElement returned by update_file_stem, if any. -/
def renameReturnsElem (m : Model) (id : Nat) (s : String) : Option FileElement :=
  match m.update_file_stem id s with
  | .ok (e, _) => e
  | .error _ => none

/- Supporting lemmas about the dict model. -/

theorem dictKeys_cons {α : Type} (p : Nat × α) (rest : PyDict α) :
    dictKeys (p :: rest) = p.1 :: dictKeys rest := rfl

theorem dictKeys_append {α : Type} (d1 d2 : PyDict α) :
    dictKeys (d1 ++ d2) = dictKeys d1 ++ dictKeys d2 := List.map_append _ _ _

theorem mem_dictKeys_of_mem {α : Type} {d : PyDict α} {p : Nat × α} (h : p ∈ d) :
    p.1 ∈ dictKeys d := List.mem_map_of_mem Prod.fst h

theorem dictLookup_eq_none_iff {α : Type} (d : PyDict α) (k : Nat) :
    dictLookup d k = none ↔ k ∉ dictKeys d := by
  induction d with
  | nil => simp [dictLookup, dictKeys]
  | cons p rest ih =>
    by_cases h : p.1 = k
    · simp [dictLookup, dictKeys_cons, h]
    · simp only [dictLookup, if_neg h, dictKeys_cons, List.mem_cons, ih]
      constructor
      · rintro hnot (hk | hk)
        · exact h hk.symm
        · exact hnot hk
      · intro hnot hk
        exact hnot (Or.inr hk)

theorem dictLookup_mem_decomp {α : Type} {d : PyDict α} {k : Nat} {v : α}
    (h : dictLookup d k = some v) :
    ∃ d1 d2, d = d1 ++ (k, v) :: d2 ∧ k ∉ dictKeys d1 := by
  induction d with
  | nil => simp [dictLookup] at h
  | cons p rest ih =>
    by_cases hpk : p.1 = k
    · refine ⟨[], rest, ?_, by simp [dictKeys]⟩
      simp only [dictLookup, if_pos hpk, Option.some.injEq] at h
      obtain ⟨a, b⟩ := p
      simp only [List.nil_append, List.cons.injEq, and_true]
      exact Prod.ext hpk h
    · simp only [dictLookup, if_neg hpk] at h
      obtain ⟨d1, d2, rfl, hk⟩ := ih h
      refine ⟨p :: d1, d2, rfl, ?_⟩
      simp only [dictKeys_cons, List.mem_cons, not_or]
      exact ⟨fun he => hpk he.symm, hk⟩

theorem map_update_eq_self {α : Type} {d : PyDict α} {k : Nat} {v : α}
    (h : k ∉ dictKeys d) :
    d.map (fun p => if p.1 = k then (k, v) else p) = d := by
  induction d with
  | nil => rfl
  | cons p rest ih =>
    simp only [dictKeys_cons, List.mem_cons, not_or] at h
    have hne : ¬ p.1 = k := fun he => h.1 he.symm
    simp only [List.map_cons, if_neg hne]
    rw [ih h.2]

theorem dictInsert_decomp {α : Type} {d1 d2 : PyDict α} {k : Nat} {w v : α}
    (h1 : k ∉ dictKeys d1) (h2 : k ∉ dictKeys d2) :
    dictInsert (d1 ++ (k, w) :: d2) k v = d1 ++ (k, v) :: d2 := by
  have hmem : k ∈ dictKeys (d1 ++ (k, w) :: d2) := by
    rw [dictKeys_append, dictKeys_cons]
    exact List.mem_append_right _ (List.mem_cons_self _ _)
  unfold dictInsert
  rw [if_pos hmem, List.map_append, List.map_cons]
  rw [map_update_eq_self h1, map_update_eq_self h2, if_pos rfl]

theorem dictInsert_fresh {α : Type} {d : PyDict α} {k : Nat} (v : α)
    (h : k ∉ dictKeys d) :
    dictInsert d k v = d ++ [(k, v)] := by
  unfold dictInsert
  rw [if_neg h]

theorem dictInsert_self_eq {α : Type} {d : PyDict α} {k : Nat} {v : α}
    (hnd : (dictKeys d).Nodup) (h : dictLookup d k = some v) :
    dictInsert d k v = d := by
  obtain ⟨d1, d2, rfl, hk1⟩ := dictLookup_mem_decomp h
  have hk2 : k ∉ dictKeys d2 := by
    rw [dictKeys_append, dictKeys_cons] at hnd
    have hmid := List.nodup_middle.mp hnd
    have hni := (List.nodup_cons.mp hmid).1
    intro hm
    exact hni (List.mem_append_right _ hm)
  exact dictInsert_decomp hk1 hk2

theorem dictLookup_map_update_self {α : Type} {d : PyDict α} {k : Nat} {v : α}
    (h : k ∈ dictKeys d) :
    dictLookup (d.map (fun p => if p.1 = k then (k, v) else p)) k = some v := by
  induction d with
  | nil => simp [dictKeys] at h
  | cons p rest ih =>
    by_cases hpk : p.1 = k
    · simp [dictLookup, hpk]
    · simp only [dictKeys_cons, List.mem_cons] at h
      rcases h with h | h
      · exact absurd h.symm hpk
      · simp only [List.map_cons, dictLookup, if_neg hpk]
        exact ih h

theorem dictLookup_map_update_ne {α : Type} (d : PyDict α) {k k2 : Nat} (v : α)
    (h : k2 ≠ k) :
    dictLookup (d.map (fun p => if p.1 = k then (k, v) else p)) k2 = dictLookup d k2 := by
  induction d with
  | nil => rfl
  | cons p rest ih =>
    by_cases hpk : p.1 = k
    · simp only [List.map_cons, if_pos hpk, dictLookup]
      rw [if_neg (fun he => h he.symm), if_neg (by rw [hpk]; exact fun he => h he.symm)]
      exact ih
    · simp only [List.map_cons, if_neg hpk, dictLookup]
      by_cases hpk2 : p.1 = k2
      · rw [if_pos hpk2, if_pos hpk2]
      · rw [if_neg hpk2, if_neg hpk2]
        exact ih

theorem dictLookup_snoc_self {α : Type} {d : PyDict α} {k : Nat} (v : α)
    (h : k ∉ dictKeys d) :
    dictLookup (d ++ [(k, v)]) k = some v := by
  induction d with
  | nil => simp [dictLookup]
  | cons p rest ih =>
    simp only [dictKeys_cons, List.mem_cons, not_or] at h
    have hne : ¬ p.1 = k := fun he => h.1 he.symm
    simp only [List.cons_append, dictLookup, if_neg hne, List.append_eq]
    exact ih h.2

theorem dictLookup_snoc_ne {α : Type} (d : PyDict α) {k k2 : Nat} (v : α)
    (h : k2 ≠ k) :
    dictLookup (d ++ [(k, v)]) k2 = dictLookup d k2 := by
  induction d with
  | nil => simp [dictLookup, if_neg (fun he : k = k2 => h he.symm)]
  | cons p rest ih =>
    simp only [List.cons_append, dictLookup]
    by_cases hpk2 : p.1 = k2
    · rw [if_pos hpk2, if_pos hpk2]
    · rw [if_neg hpk2, if_neg hpk2]
      exact ih

theorem dictLookup_dictInsert_self {α : Type} (d : PyDict α) (k : Nat) (v : α) :
    dictLookup (dictInsert d k v) k = some v := by
  unfold dictInsert
  by_cases h : k ∈ dictKeys d
  · rw [if_pos h]
    exact dictLookup_map_update_self h
  · rw [if_neg h]
    exact dictLookup_snoc_self v h

theorem dictLookup_dictInsert_ne {α : Type} (d : PyDict α) {k k2 : Nat} (v : α)
    (h : k2 ≠ k) :
    dictLookup (dictInsert d k v) k2 = dictLookup d k2 := by
  unfold dictInsert
  by_cases hm : k ∈ dictKeys d
  · rw [if_pos hm]
    exact dictLookup_map_update_ne d v h
  · rw [if_neg hm]
    exact dictLookup_snoc_ne d v h

theorem dictKeys_map_update {α : Type} (d : PyDict α) (k : Nat) (v : α) :
    dictKeys (d.map (fun p => if p.1 = k then (k, v) else p)) = dictKeys d := by
  induction d with
  | nil => rfl
  | cons p rest ih =>
    by_cases hpk : p.1 = k
    · simp only [List.map_cons, if_pos hpk, dictKeys_cons, ih]
      rw [hpk]
    · simp only [List.map_cons, if_neg hpk, dictKeys_cons, ih]

/-- C5: add_file with an already-present sourcePath returns null, creates
no entry, leaves the catalog unchanged, and never invokes the
name-conflict callback, whatever the display name is. -/
theorem c5_duplicate_source_silent (m : Model) (p s x : String) (f : String → Bool)
    (hp : p ∈ dictValues m.file_path_dict) :
    m.add_file p s x f = (none, m) ∧ m.add_file_confirm_args p s x = [] := by
  constructor
  · unfold Model.add_file
    rw [if_pos hp]
  · unfold Model.add_file_confirm_args
    rw [if_pos hp]

/-- C5 witness: importing /a/report.docx into the scenario catalog a second
time is silently ignored even though the name report.docx also collides. -/
theorem c5_witness :
    scenarioModel.add_file ("/a/report.docx") ("z") (".docx") (fun _ => true) =
      (none, scenarioModel)
    ∧ scenarioModel.add_file_confirm_args ("/a/report.docx") ("z") (".docx") = [] :=
  c5_duplicate_source_silent scenarioModel ("/a/report.docx") ("z") (".docx")
    (fun _ => true) (by decide)

/-- C9: update_file_stem with an id that has no entry raises KeyError (the
dict subscript on src/model.py line 79) instead of returning null. -/
theorem c9_unknown_id_keyerror (m : Model) (id : Nat) (s : String)
    (h : dictLookup m.file_element_dict id = none) :
    m.update_file_stem id s = .error .keyError := by
  unfold Model.update_file_stem
  rw [h]

/-- C9 witness: renaming id 1 in an empty catalog raises KeyError. -/
theorem c9_witness : Model.init.update_file_stem 1 ("x") = .error .keyError :=
  c9_unknown_id_keyerror Model.init 1 ("x") rfl

/-- C6 counterexample: in the reachable state where entry 1 of an
admitted-duplicate pair was renamed to X, entry 2 is live with display
name report.docx but that name is no longer in the unique-name set, so
adding a fresh source path with that very display name invokes the
conflict callback zero times (not once) and creates the entry outright
even with a refusing callback. -/
theorem c6_counterexample :
    dictLookup dupRenamedModel.file_element_dict 2 = some (2, ("report"), (".docx"))
    ∧ ("/c/report.docx") ∉ dictValues dupRenamedModel.file_path_dict
    ∧ dupRenamedModel.add_file_confirm_args ("/c/report.docx") ("report") (".docx") = []
    ∧ (dupRenamedModel.add_file ("/c/report.docx") ("report") (".docx") (fun _ => false)).1 =
        some (3, ("report"), (".docx")) := by
  refine ⟨by decide, by decide, by decide, by decide⟩

/-- C6 amended: add_file with a fresh sourcePath whose full display name
is present in the unique-name set invokes the conflict callback exactly
once, with that full name; if the callback refuses, the call returns null
and the catalog is unchanged; if it accepts, the new entry gets id equal
to the counter, the counter advances, the new entry is stored, and every
other entry (in particular the one carrying the same display name) is
untouched. (The set coincides with the live entries' display names unless
a duplicate-named entry was admitted and a sibling renamed; a collision
with a live name absent from the set invokes no prompt at all.) -/
theorem c6_name_conflict_prompt (m : Model) (p s x : String) (f : String → Bool)
    (hp : p ∉ dictValues m.file_path_dict) (hn : (s ++ x) ∈ m.unique_file_names) :
    m.add_file_confirm_args p s x = [s ++ x]
    ∧ (f (s ++ x) = false → m.add_file p s x f = (none, m))
    ∧ (f (s ++ x) = true →
        (m.add_file p s x f).1 = some (m.counter, s, x)
        ∧ (m.add_file p s x f).2.counter = m.counter + 1
        ∧ dictLookup (m.add_file p s x f).2.file_element_dict m.counter =
            some (m.counter, s, x)
        ∧ (∀ k, k ≠ m.counter →
            dictLookup (m.add_file p s x f).2.file_element_dict k =
              dictLookup m.file_element_dict k)) := by
  refine ⟨?_, ?_, ?_⟩
  · unfold Model.add_file_confirm_args
    rw [if_neg hp, if_pos hn]
  · intro hf
    unfold Model.add_file
    rw [if_neg hp, if_pos ⟨hn, hf⟩]
  · intro hf
    have hcond : ¬ ((s ++ x) ∈ m.unique_file_names ∧ f (s ++ x) = false) := by
      intro hc
      rw [hf] at hc
      exact Bool.noConfusion hc.2
    unfold Model.add_file
    rw [if_neg hp, if_neg hcond]
    refine ⟨rfl, rfl, dictLookup_dictInsert_self _ _ _, fun k hk => ?_⟩
    exact dictLookup_dictInsert_ne _ _ hk

/-- C6 witness: adding /c/report.docx to the scenario catalog prompts once
with report.docx; with an accepting prompt the entry gets id 3 and entry 2
(same display name) is untouched. -/
theorem c6_witness :
    scenarioModel.add_file_confirm_args ("/c/report.docx") ("report") (".docx") =
      [("report") ++ (".docx")]
    ∧ (scenarioModel.add_file ("/c/report.docx") ("report") (".docx") (fun _ => true)).1 =
        some (3, ("report"), (".docx"))
    ∧ dictLookup (scenarioModel.add_file ("/c/report.docx") ("report") (".docx")
        (fun _ => true)).2.file_element_dict 2 =
        dictLookup scenarioModel.file_element_dict 2 := by
  have h := c6_name_conflict_prompt scenarioModel ("/c/report.docx") ("report") (".docx")
    (fun _ => true) (by decide) (by decide)
  exact ⟨h.1, (h.2.2 rfl).1, (h.2.2 rfl).2.2.2 2 (by decide)⟩

/-- C3 counterexample: for the base name a.b the archive is created at
/d/a.b.zip but the method returns /d/a.zip, because with_suffix replaces
an existing dot-suffix instead of appending. -/
theorem c3_counterexample :
    (create_zip_archive ∅ ("/d") ("a.b")).createdPath = ("/d/a.b.zip")
    ∧ (create_zip_archive ∅ ("/d") ("a.b")).returnedPath = ("/d/a.zip")
    ∧ (create_zip_archive ∅ ("/d") ("a.b")).returnedPath ≠
        (create_zip_archive ∅ ("/d") ("a.b")).createdPath := by
  refine ⟨by decide, by decide, by decide⟩

/-- C3 amended: create_zip_archive writes a single archive at
destDir/baseName.zip holding exactly the working-directory contents, and
the returned path equals that created path provided the base name carries
no dot-suffix (Python suffix rule); with a dot-suffix the returned path
has the suffix replaced by .zip and differs from the created file. -/
theorem c3_create_zip_archive_path (contents : Finset String) (dest zipName : String)
    (h : pyStem zipName = zipName) :
    (create_zip_archive contents dest zipName).createdPath =
      dest ++ "/" ++ zipName ++ ".zip"
    ∧ (create_zip_archive contents dest zipName).returnedPath =
        (create_zip_archive contents dest zipName).createdPath
    ∧ (create_zip_archive contents dest zipName).entries = contents := by
  unfold create_zip_archive withSuffix
  rw [h]
  exact ⟨rfl, by simp [String.append_assoc], rfl⟩

/-- C3 witness: for the suffix-free base name archive the created and
returned paths agree. -/
theorem c3_witness :
    (create_zip_archive ∅ ("/d") ("archive")).createdPath =
      ("/d") ++ "/" ++ ("archive") ++ ".zip"
    ∧ (create_zip_archive ∅ ("/d") ("archive")).returnedPath =
        (create_zip_archive ∅ ("/d") ("archive")).createdPath :=
  ⟨(c3_create_zip_archive_path ∅ ("/d") ("archive") (by decide)).1,
   (c3_create_zip_archive_path ∅ ("/d") ("archive") (by decide)).2.1⟩

/-- C7 counterexample: in the reachable state where entry 1 of an
admitted-duplicate pair was renamed to X, entry 2 is live with display
name report.docx, yet renaming entry 1 to report succeeds (returns an
element, not null) and mutates the catalog, because the unique-name set
no longer contains report.docx. -/
theorem c7_counterexample :
    dictLookup dupRenamedModel.file_element_dict 2 = some (2, ("report"), (".docx"))
    ∧ dictLookup dupRenamedModel.file_element_dict 1 = some (1, ("X"), (".docx"))
    ∧ renameReturnsNull dupRenamedModel 1 ("report") = false
    ∧ renameReturnsElem dupRenamedModel 1 ("report") = some (1, ("report"), (".docx"))
    ∧ applyOp dupRenamedModel (.renameOp 1 ("report")) ≠ dupRenamedModel := by
  refine ⟨by decide, by decide, by decide, by decide, ?_⟩
  intro h
  have hm : ("report.docx") ∈
      (applyOp dupRenamedModel (.renameOp 1 ("report"))).unique_file_names := by decide
  rw [h] at hm
  exact absurd hm (by decide)

/-- C7 amended: renaming a live entry to a full name that differs from its
current one and is present in the unique-name set returns null with no
mutation (the set coincides with the live display names whenever no
duplicate was admitted). -/
theorem c7_rename_conflict_null (m : Model) (id : Nat) (new_stem : String)
    (cur : FileElement)
    (hl : dictLookup m.file_element_dict id = some cur)
    (hne : new_stem ++ cur.2.2 ≠ cur.2.1 ++ cur.2.2)
    (hmem : (new_stem ++ cur.2.2) ∈ m.unique_file_names) :
    m.update_file_stem id new_stem = .ok (none, m) := by
  unfold Model.update_file_stem
  rw [hl]
  dsimp only
  rw [if_pos ⟨hne, hmem⟩]

/-- C7 witness: renaming report.docx to other.docx while other.docx is
live fails with null and no mutation. -/
theorem c7_witness :
    twoNamesModel.update_file_stem 1 ("other") = .ok (none, twoNamesModel) :=
  c7_rename_conflict_null twoNamesModel 1 ("other") (1, ("report"), (".docx"))
    (by decide) (by decide) (by decide)

/-- C8 counterexample: in the reachable state where entry 1 of an
admitted-duplicate pair was renamed away, renaming entry 2 with its
current stem report returns the unchanged element but does not leave the
catalog state equal: the unique-name set gains report.docx. -/
theorem c8_counterexample :
    dictLookup dupRenamedModel.file_element_dict 2 = some (2, ("report"), (".docx"))
    ∧ renameReturnsElem dupRenamedModel 2 ("report") = some (2, ("report"), (".docx"))
    ∧ applyOp dupRenamedModel (.renameOp 2 ("report")) ≠ dupRenamedModel := by
  refine ⟨by decide, by decide, ?_⟩
  intro h
  have hm : ("report.docx") ∈
      (applyOp dupRenamedModel (.renameOp 2 ("report"))).unique_file_names := by decide
  rw [h] at hm
  exact absurd hm (by decide)

/-- C8 amended: renaming a live entry with its current stem is a no-op
success returning the unchanged element, and the catalog state is left
equal provided the entry's full display name is still in the unique-name
set (always the case unless an admitted-duplicate sibling was renamed
away; without it only the name set changes, gaining that full name). -/
theorem c8_rename_same_stem_noop (m : Model) (id : Nat) (cur : FileElement)
    (hl : dictLookup m.file_element_dict id = some cur)
    (hmem : (cur.2.1 ++ cur.2.2) ∈ m.unique_file_names)
    (hnd : (dictKeys m.file_element_dict).Nodup) :
    m.update_file_stem id cur.2.1 = .ok (some cur, m) := by
  unfold Model.update_file_stem
  rw [hl]
  dsimp only
  rw [if_neg (fun hc => hc.1 rfl)]
  rw [if_pos hmem, Finset.insert_erase hmem]
  rw [dictInsert_self_eq hnd hl]

/-- C8 witness: renaming entry 1 of the two-name catalog with its current
stem report is a no-op success. -/
theorem c8_witness :
    twoNamesModel.update_file_stem 1 ("report") =
      .ok (some (1, ("report"), (".docx")), twoNamesModel) :=
  c8_rename_same_stem_noop twoNamesModel 1 (1, ("report"), (".docx"))
    (by decide) (by decide) (by decide)

/-- C2: when the converter fails on some entry, the export thread produces
no archive, the temporary working directory no longer exists afterwards,
and the Model (all three structures and the counter) is exactly as before
the export. -/
theorem c2_converter_failure_rollback (m : Model) (convertOk : Nat → Bool) (zipOk : Bool)
    (dir uuid : String)
    (h : m.export convertOk = .error .calledProcessError) :
    Controller.run_export_in_thread m convertOk zipOk dir uuid =
      { model := m, archive := none, tempDirExists := false } := by
  unfold Controller.run_export_in_thread
  rw [h]

/-- C2 witness: the one-file catalog with a failing converter rolls back
completely. -/
theorem c2_witness :
    Controller.run_export_in_thread oneFileModel (fun _ => false) true ("/dest") ("abcd") =
      { model := oneFileModel, archive := none, tempDirExists := false } :=
  c2_converter_failure_rollback oneFileModel (fun _ => false) true ("/dest") ("abcd") rfl

/-- C10: after a fully successful export (conversion and archiving both
complete), the controller resets the catalog as a side effect: the Model
returns to its initial state, the count is 0, the counter is 1, and the
next add receives id 1. -/
theorem c10_success_resets_catalog (m : Model) (convertOk : Nat → Bool)
    (dir uuid : String) (wd : Finset String)
    (h : m.export convertOk = .ok wd) :
    (Controller.run_export_in_thread m convertOk true dir uuid).model = Model.init
    ∧ (Controller.run_export_in_thread m convertOk true dir uuid).model.get_file_count = 0
    ∧ (Controller.run_export_in_thread m convertOk true dir uuid).model.counter = 1
    ∧ (∀ p s x f,
        ((Controller.run_export_in_thread m convertOk true dir uuid).model.add_file
          p s x f).1 = some (1, s, x)) := by
  have hm : (Controller.run_export_in_thread m convertOk true dir uuid).model = Model.init := by
    unfold Controller.run_export_in_thread
    rw [h]
    rfl
  refine ⟨hm, ?_, ?_, ?_⟩
  · rw [hm]
    rfl
  · rw [hm]
    rfl
  · intro p s x f
    rw [hm]
    unfold Model.add_file
    rw [if_neg (by simp [Model.init, dictValues])]
    rw [if_neg (by simp [Model.init])]
    rfl

/-- C10 witness: exporting the one-file catalog with a succeeding
converter resets the catalog and the next add receives id 1. -/
theorem c10_witness :
    (Controller.run_export_in_thread oneFileModel (fun _ => true) true
      ("/dest") ("abcd")).model = Model.init
    ∧ ((Controller.run_export_in_thread oneFileModel (fun _ => true) true
        ("/dest") ("abcd")).model.add_file ("/n/new.docx") ("new") (".docx")
        (fun _ => false)).1 = some (1, ("new"), (".docx")) := by
  have h := c10_success_resets_catalog oneFileModel (fun _ => true) ("/dest") ("abcd")
    ({"report.pdf"} : Finset String) rfl
  exact ⟨h.1, h.2.2.2 ("/n/new.docx") ("new") (".docx") (fun _ => false)⟩

/- Correctness of the decimal rendering and of the final-name collision
loop, needed for the C4 claim. -/

theorem digitsAux_val (fuel : Nat) : ∀ n, n ≤ fuel → digitsVal (digitsAux fuel n) = n := by
  induction fuel with
  | zero =>
    intro n hn
    have h0 : n = 0 := Nat.le_zero.mp hn
    simp [digitsAux, h0, digitsVal]
  | succ fuel ih =>
    intro n hn
    by_cases h0 : n = 0
    · simp [digitsAux, h0, digitsVal]
    · simp only [digitsAux, if_neg h0, digitsVal]
      have hlt : n / 10 < n := Nat.div_lt_self (Nat.pos_of_ne_zero h0) (by omega)
      rw [ih (n / 10) (by omega)]
      omega

theorem natDigits_val (n : Nat) : digitsVal (natDigits n) = n :=
  digitsAux_val n n le_rfl

theorem digitsAux_lt_ten (fuel : Nat) : ∀ n d, d ∈ digitsAux fuel n → d < 10 := by
  induction fuel with
  | zero =>
    intro n d hd
    simp [digitsAux] at hd
  | succ fuel ih =>
    intro n d hd
    by_cases h0 : n = 0
    · simp [digitsAux, h0] at hd
    · simp only [digitsAux, if_neg h0, List.mem_cons] at hd
      rcases hd with h | h
      · omega
      · exact ih _ _ h

theorem digitChar_inj_lt : ∀ d1, d1 < 10 → ∀ d2, d2 < 10 →
    digitChar d1 = digitChar d2 → d1 = d2 := by decide

theorem map_digitChar_inj : ∀ l1 l2 : List Nat, (∀ d ∈ l1, d < 10) → (∀ d ∈ l2, d < 10) →
    l1.map digitChar = l2.map digitChar → l1 = l2 := by
  intro l1
  induction l1 with
  | nil =>
    intro l2 _ _ h
    cases l2 with
    | nil => rfl
    | cons b t => simp at h
  | cons a t ih =>
    intro l2 h1 h2 h
    cases l2 with
    | nil => simp at h
    | cons b t2 =>
      simp only [List.map_cons, List.cons.injEq] at h
      have hab : a = b :=
        digitChar_inj_lt a (h1 a (List.mem_cons_self a t)) b (h2 b (List.mem_cons_self b t2)) h.1
      have ht : t = t2 :=
        ih t2 (fun d hd => h1 d (List.mem_cons_of_mem a hd))
          (fun d hd => h2 d (List.mem_cons_of_mem b hd)) h.2
      rw [hab, ht]

theorem natRepr_inj_pos {a b : Nat} (ha : 0 < a) (hb : 0 < b)
    (h : natRepr a = natRepr b) : a = b := by
  unfold natRepr at h
  rw [if_neg (Nat.pos_iff_ne_zero.mp ha), if_neg (Nat.pos_iff_ne_zero.mp hb)] at h
  have hdata : ((natDigits a).map digitChar).reverse = ((natDigits b).map digitChar).reverse := by
    have := congrArg String.data h
    simpa using this
  have hmap : (natDigits a).map digitChar = (natDigits b).map digitChar :=
    List.reverse_injective hdata
  have hdig : natDigits a = natDigits b :=
    map_digitChar_inj _ _ (fun d hd => digitsAux_lt_ten a a d hd)
      (fun d hd => digitsAux_lt_ten b b d hd) hmap
  calc a = digitsVal (natDigits a) := (natDigits_val a).symm
    _ = digitsVal (natDigits b) := by rw [hdig]
    _ = b := natDigits_val b

theorem candidate_inj_succ (base : String) {i j : Nat}
    (h : candidate base (i + 1) = candidate base (j + 1)) : i = j := by
  unfold candidate at h
  have hd := congrArg String.data h
  simp only [String.data_append] at hd
  have h1 := List.append_cancel_right hd
  have h2 := List.append_cancel_left h1
  have hrepr : natRepr (i + 1) = natRepr (j + 1) := String.ext h2
  exact Nat.succ_injective (natRepr_inj_pos (Nat.succ_pos i) (Nat.succ_pos j) hrepr)

theorem resolveLoop_spec (wd : Finset String) (base : String) :
    ∀ fuel k, (∃ j, k ≤ j ∧ j < k + fuel ∧ candidate base j ∉ wd) →
    ∃ j, k ≤ j ∧ resolveLoop wd base k fuel = candidate base j ∧ candidate base j ∉ wd
      ∧ ∀ i, k ≤ i → i < j → candidate base i ∈ wd := by
  intro fuel
  induction fuel with
  | zero =>
    rintro k ⟨j, hj1, hj2, _⟩
    omega
  | succ fuel ih =>
    rintro k ⟨j, hj1, hj2, hj3⟩
    by_cases hk : candidate base k ∈ wd
    · have hjk : j ≠ k := fun he => hj3 (he ▸ hk)
      obtain ⟨j2, h1, h2, h3, h4⟩ := ih (k + 1) ⟨j, by omega, by omega, hj3⟩
      refine ⟨j2, by omega, ?_, h3, ?_⟩
      · simp only [resolveLoop, if_pos hk]
        exact h2
      · intro i hi1 hi2
        rcases Nat.eq_or_lt_of_le hi1 with he | hlt
        · rw [← he]
          exact hk
        · exact h4 i hlt hi2
    · refine ⟨k, le_rfl, ?_, hk, fun i h1 h2 => by omega⟩
      simp only [resolveLoop, if_neg hk]

theorem candidate_free_exists (wd : Finset String) (base : String) :
    ∃ j, 1 ≤ j ∧ j < 1 + (wd.card + 1) ∧ candidate base j ∉ wd := by
  by_contra hall
  push_neg at hall
  have hinj : Set.InjOn (fun i => candidate base (i + 1)) (Finset.range (wd.card + 1)) :=
    fun a _ b _ h => candidate_inj_succ base h
  have hsub : (Finset.range (wd.card + 1)).image (fun i => candidate base (i + 1)) ⊆ wd := by
    intro s hs
    simp only [Finset.mem_image, Finset.mem_range] at hs
    obtain ⟨i, hi, rfl⟩ := hs
    exact hall (i + 1) (by omega) (by omega)
  have hcard := Finset.card_image_of_injOn hinj
  rw [Finset.card_range] at hcard
  have hle := Finset.card_le_card hsub
  omega

/-- C4: the collision loop resolves each converted file's final name to
displayStem.pdf when free, and otherwise to the first free
displayStem_k.pdf in increasing order of k; in the admitted-duplicate
scenario with two entries both displayed as report, the export produces
exactly report.pdf (first processed entry) and report_1.pdf (second), and
that is exactly what gets archived. -/
theorem c4_final_name_resolution :
    (∀ (wd : Finset String) (base : String), ∃ k,
        resolveFinal wd base = candidate base k ∧ candidate base k ∉ wd
        ∧ ∀ j, j < k → candidate base j ∈ wd)
    ∧ scenarioModel.export (fun _ => true) =
        .ok ({"report_1.pdf", "report.pdf"} : Finset String) := by
  constructor
  · intro wd base
    by_cases h0 : candidate base 0 ∈ wd
    · obtain ⟨j, hj1, hj2, hj3, hj4⟩ :=
        resolveLoop_spec wd base (wd.card + 1) 1 (candidate_free_exists wd base)
      refine ⟨j, ?_, hj3, ?_⟩
      · simp only [resolveFinal, if_pos h0]
        exact hj2
      · intro i hi
        rcases Nat.eq_zero_or_pos i with rfl | hpos
        · exact h0
        · exact hj4 i hpos hi
    · refine ⟨0, ?_, h0, fun j hj => absurd hj (Nat.not_lt_zero j)⟩
      simp only [resolveFinal, if_neg h0]
  · rfl

/-- C4 witness: in an empty working directory the resolved name is the
plain displayStem.pdf candidate. -/
theorem c4_witness : resolveFinal ∅ ("a") = candidate ("a") 0 := by
  obtain ⟨k, h1, h2, h3⟩ := c4_final_name_resolution.1 ∅ ("a")
  cases k with
  | zero => exact h1
  | succ k => exact absurd (h3 0 (Nat.succ_pos k)) (Finset.not_mem_empty _)

/- Preservation of the catalog invariant, for the C1 claim. -/

theorem dictNames_append (d1 d2 : PyDict FileElement) :
    dictNames (d1 ++ d2) = dictNames d1 ++ dictNames d2 := List.map_append _ _ _

theorem dictNames_cons (p : Nat × FileElement) (d : PyDict FileElement) :
    dictNames (p :: d) = fullName p.2 :: dictNames d := rfl

theorem toFinset_snoc (l : List String) (a : String) :
    (l ++ [a]).toFinset = insert a l.toFinset := by
  ext y
  simp [or_comm]

theorem toFinset_middle_update {n1 n2 : List String} {old nw : String}
    (hold : old ∉ n1.toFinset ∪ n2.toFinset) :
    insert nw ((n1 ++ old :: n2).toFinset.erase old) = (n1 ++ nw :: n2).toFinset := by
  have h1 : (n1 ++ old :: n2).toFinset = insert old (n1.toFinset ∪ n2.toFinset) := by
    rw [List.toFinset_append, List.toFinset_cons, Finset.union_insert]
  have h2 : (n1 ++ nw :: n2).toFinset = insert nw (n1.toFinset ∪ n2.toFinset) := by
    rw [List.toFinset_append, List.toFinset_cons, Finset.union_insert]
  rw [h1, Finset.erase_insert hold, h2]

theorem Inv_init : Inv Model.init :=
  ⟨rfl, List.nodup_nil, fun k hk => absurd hk (List.not_mem_nil k), List.nodup_nil, rfl⟩

theorem Inv_add (m : Model) (p s x : String) (c : Bool) (hInv : Inv m)
    (hna : opAdmitsDup m (.addOp p s x c) = false) :
    Inv (applyOp m (.addOp p s x c)) := by
  obtain ⟨hkeys, hknd, hbound, hnnd, hset⟩ := hInv
  unfold applyOp
  dsimp only
  unfold Model.add_file
  by_cases hp : p ∈ dictValues m.file_path_dict
  · rw [if_pos hp]
    exact ⟨hkeys, hknd, hbound, hnnd, hset⟩
  · rw [if_neg hp]
    by_cases hname : (s ++ x) ∈ m.unique_file_names
    · have hc : c = false := by
        unfold opAdmitsDup at hna
        simpa [hp, hname] using hna
      rw [if_pos ⟨hname, hc⟩]
      exact ⟨hkeys, hknd, hbound, hnnd, hset⟩
    · rw [if_neg (fun hcon => hname hcon.1)]
      dsimp only
      have hfe : m.counter ∉ dictKeys m.file_element_dict :=
        fun hin => absurd (hbound m.counter hin) (lt_irrefl m.counter)
      have hfp : m.counter ∉ dictKeys m.file_path_dict := by
        rw [hkeys]
        exact hfe
      rw [dictInsert_fresh p hfp, dictInsert_fresh (m.counter, s, x) hfe]
      have hnmem : (s ++ x) ∉ dictNames m.file_element_dict := by
        intro hin
        exact hname (hset ▸ List.mem_toFinset.mpr hin)
      refine ⟨?_, ?_, ?_, ?_, ?_⟩
      · rw [dictKeys_append, dictKeys_append, hkeys]
        rfl
      · rw [dictKeys_append]
        rw [List.nodup_append]
        exact ⟨hknd, List.nodup_singleton _, by
          intro a ha hb
          simp only [dictKeys, List.map_cons, List.map_nil, List.mem_singleton] at hb
          exact hfe (hb ▸ ha)⟩
      · intro k hk
        show k < m.counter + 1
        rw [dictKeys_append] at hk
        rcases List.mem_append.mp hk with hk | hk
        · exact Nat.lt_succ_of_lt (hbound k hk)
        · simp only [dictKeys, List.map_cons, List.map_nil, List.mem_singleton] at hk
          omega
      · rw [dictNames_append]
        rw [List.nodup_append]
        refine ⟨hnnd, List.nodup_singleton _, ?_⟩
        intro a ha hb
        simp only [dictNames, fullName, List.map_cons, List.map_nil,
          List.mem_singleton] at hb
        exact hnmem (hb ▸ ha)
      · rw [dictNames_append, hset]
        have hone : dictNames [(m.counter, (m.counter, s, x))] = [s ++ x] := rfl
        rw [hone, toFinset_snoc]

theorem Inv_rename (m : Model) (id : Nat) (s : String) (hInv : Inv m) :
    Inv (applyOp m (.renameOp id s)) := by
  obtain ⟨hkeys, hknd, hbound, hnnd, hset⟩ := hInv
  unfold applyOp
  dsimp only
  unfold Model.update_file_stem
  cases hl : dictLookup m.file_element_dict id with
  | none =>
    exact ⟨hkeys, hknd, hbound, hnnd, hset⟩
  | some cur =>
    dsimp only
    by_cases hguard : s ++ cur.2.2 ≠ cur.2.1 ++ cur.2.2 ∧
        (s ++ cur.2.2) ∈ m.unique_file_names
    · rw [if_pos hguard]
      exact ⟨hkeys, hknd, hbound, hnnd, hset⟩
    · rw [if_neg hguard]
      obtain ⟨d1, d2, hdeq, hk1⟩ := dictLookup_mem_decomp hl
      have hk2 : id ∉ dictKeys d2 := by
        rw [hdeq, dictKeys_append, dictKeys_cons] at hknd
        have hmid := List.nodup_middle.mp hknd
        intro hin
        exact (List.nodup_cons.mp hmid).1 (List.mem_append_right _ hin)
      have hold_notin : fullName cur ∉ dictNames d1 ++ dictNames d2 := by
        rw [hdeq, dictNames_append, dictNames_cons] at hnnd
        exact (List.nodup_cons.mp (List.nodup_middle.mp hnnd)).1
      have hold_mem : (cur.2.1 ++ cur.2.2) ∈ m.unique_file_names := by
        rw [hset, hdeq, dictNames_append, dictNames_cons]
        rw [List.mem_toFinset]
        exact List.mem_append_right _ (List.mem_cons_self _ _)
      rw [if_pos hold_mem]
      dsimp only
      rw [hdeq, dictInsert_decomp hk1 hk2]
      have hnew_notin : (s ++ cur.2.2) ∉ dictNames d1 ++ dictNames d2 := by
        rcases not_and_or.mp hguard with h1 | h2
        · rw [not_not.mp h1]
          exact hold_notin
        · intro hin
          apply h2
          rw [hset, hdeq, dictNames_append, dictNames_cons, List.mem_toFinset]
          rcases List.mem_append.mp hin with hh | hh
          · exact List.mem_append_left _ hh
          · exact List.mem_append_right _ (List.mem_cons_of_mem _ hh)
      have hn_mid : dictNames (d1 ++ (id, cur.1, s, cur.2.2) :: d2) =
          dictNames d1 ++ (s ++ cur.2.2) :: dictNames d2 := by
        rw [dictNames_append, dictNames_cons]
        rfl
      have ho_mid : dictNames (d1 ++ (id, cur) :: d2) =
          dictNames d1 ++ (cur.2.1 ++ cur.2.2) :: dictNames d2 := by
        rw [dictNames_append, dictNames_cons]
        rfl
      have hkeys_mid : dictKeys (d1 ++ (id, cur.1, s, cur.2.2) :: d2) =
          dictKeys (d1 ++ (id, cur) :: d2) := by
        rw [dictKeys_append, dictKeys_append, dictKeys_cons, dictKeys_cons]
      refine ⟨?_, ?_, ?_, ?_, ?_⟩
      · rw [hkeys_mid, ← hdeq, hkeys]
      · rw [hkeys_mid, ← hdeq]
        exact hknd
      · intro k hk
        rw [hkeys_mid, ← hdeq] at hk
        exact hbound k hk
      · rw [hn_mid]
        rw [hdeq, ho_mid] at hnnd
        rw [List.nodup_middle] at hnnd ⊢
        exact List.nodup_cons.mpr ⟨hnew_notin, (List.nodup_cons.mp hnnd).2⟩
      · rw [hn_mid, hset, hdeq, ho_mid]
        apply toFinset_middle_update
        simp only [Finset.mem_union, List.mem_toFinset]
        intro hc
        rcases hc with hc | hc
        · exact hold_notin (List.mem_append_left _ hc)
        · exact hold_notin (List.mem_append_right _ hc)

theorem Inv_runOps_aux : ∀ (ops : List Op) (m : Model), Inv m →
    traceAdmitsDup m ops = false → Inv (ops.foldl applyOp m) := by
  intro ops
  induction ops with
  | nil =>
    intro m h _
    exact h
  | cons op rest ih =>
    intro m hm htr
    simp only [traceAdmitsDup, Bool.or_eq_false_iff] at htr
    have hstep : Inv (applyOp m op) := by
      cases op with
      | addOp p s x c => exact Inv_add m p s x c hm htr.1
      | renameOp i s2 => exact Inv_rename m i s2 hm
      | resetOp => exact Inv_init
    exact ih (applyOp m op) hstep htr.2

/-- C1 counterexample: the trace that imports /a/report.docx and then
admits /b/report.docx under the same display name yields two entries and
two recorded paths but only one member in the unique-name set, so the
cardinalities do not match. -/
theorem c1_counterexample :
    (runOps [Op.addOp ("/a/report.docx") ("report") (".docx") true,
             Op.addOp ("/b/report.docx") ("report") (".docx") true]).file_element_dict.length = 2
    ∧ (runOps [Op.addOp ("/a/report.docx") ("report") (".docx") true,
             Op.addOp ("/b/report.docx") ("report") (".docx") true]).file_path_dict.length = 2
    ∧ (runOps [Op.addOp ("/a/report.docx") ("report") (".docx") true,
             Op.addOp ("/b/report.docx") ("report") (".docx") true]).unique_file_names.card = 1 := by
  refine ⟨by decide, by decide, by decide⟩

/-- C1 amended: along every trace of add_file, update_file_stem and reset
operations in which no name-collision prompt is answered yes (no duplicate
display name is ever admitted), the three structures stay mutually
consistent: every live entry's full display name is in the unique-name
set, every entry's id has a recorded source path, and the cardinalities of
the entry map, the path record and the name set all match. -/
theorem c1_catalog_mutual_consistency (ops : List Op)
    (h : traceAdmitsDup Model.init ops = false) :
    (∀ q ∈ (runOps ops).file_element_dict, fullName q.2 ∈ (runOps ops).unique_file_names)
    ∧ (∀ q ∈ (runOps ops).file_element_dict,
        q.1 ∈ dictKeys (runOps ops).file_path_dict)
    ∧ (runOps ops).file_path_dict.length = (runOps ops).file_element_dict.length
    ∧ (runOps ops).unique_file_names.card = (runOps ops).file_element_dict.length := by
  unfold runOps
  obtain ⟨hkeys, hknd, hbound, hnnd, hset⟩ := Inv_runOps_aux ops Model.init Inv_init h
  refine ⟨?_, ?_, ?_, ?_⟩
  · intro q hq
    rw [hset, List.mem_toFinset]
    exact List.mem_map_of_mem _ hq
  · intro q hq
    rw [hkeys]
    exact mem_dictKeys_of_mem hq
  · have hlen := congrArg List.length hkeys
    simpa [dictKeys] using hlen
  · rw [hset, List.toFinset_card_of_nodup hnnd]
    simp [dictNames]

/-- C1 witness: a concrete conflict-free trace (two adds with distinct
names, a rename and a reset followed by an add) keeps all three
cardinalities equal. -/
theorem c1_witness :
    (runOps [Op.addOp ("/a/report.docx") ("report") (".docx") false,
             Op.addOp ("/b/other.docx") ("other") (".docx") false,
             Op.renameOp 1 ("draft"), Op.resetOp,
             Op.addOp ("/c/new.docx") ("new") (".docx") false]).file_path_dict.length =
      (runOps [Op.addOp ("/a/report.docx") ("report") (".docx") false,
             Op.addOp ("/b/other.docx") ("other") (".docx") false,
             Op.renameOp 1 ("draft"), Op.resetOp,
             Op.addOp ("/c/new.docx") ("new") (".docx") false]).file_element_dict.length
    ∧ (runOps [Op.addOp ("/a/report.docx") ("report") (".docx") false,
             Op.addOp ("/b/other.docx") ("other") (".docx") false,
             Op.renameOp 1 ("draft"), Op.resetOp,
             Op.addOp ("/c/new.docx") ("new") (".docx") false]).unique_file_names.card =
      (runOps [Op.addOp ("/a/report.docx") ("report") (".docx") false,
             Op.addOp ("/b/other.docx") ("other") (".docx") false,
             Op.renameOp 1 ("draft"), Op.resetOp,
             Op.addOp ("/c/new.docx") ("new") (".docx") false]).file_element_dict.length := by
  have h := c1_catalog_mutual_consistency
    [Op.addOp ("/a/report.docx") ("report") (".docx") false,
     Op.addOp ("/b/other.docx") ("other") (".docx") false,
     Op.renameOp 1 ("draft"), Op.resetOp,
     Op.addOp ("/c/new.docx") ("new") (".docx") false] (by decide)
  exact ⟨h.2.2.1, h.2.2.2⟩

end PdfArchiver
